import Mathlib

/-!
Verification development for the span-based rich-text formatting core
(`src/core/src/html/text_format.rs`).

The Rust code is shallowly embedded: `f64` style values are modelled by the
`F64` type below (the code only ever copies values and compares them with
IEEE `==`, never performs arithmetic on them), `usize` as `Nat`, the text
buffer as `List Char` with the span-length metric being list length, and
fallible or panicking operations return `Option`.
-/

/-- Model of `f64` as this engine uses it: values are copied and compared
with IEEE `==` only, so the model keeps a NaN element, the signed infinities
and finite rationals (`-0.0` and `0.0` both map to `val 0`, which IEEE `==`
also identifies). -/
inductive F64 where
  | nan
  | inf
  | negInf
  | val (q : Rat)
deriving DecidableEq, Repr

/-- IEEE `==` on modelled `f64` values: false whenever either side is NaN,
otherwise value equality. This is the comparison the source's `==` performs
in `TextSpan::can_merge`. -/
def F64.ieeeEq : F64 → F64 → Bool
  | F64.nan, _ => false
  | _, F64.nan => false
  | F64.inf, F64.inf => true
  | F64.negInf, F64.negInf => true
  | F64.val a, F64.val b => decide (a = b)
  | _, _ => false

/-- Element-wise IEEE `==` on `Vec<f64>`, as `==` behaves on the `tab_stops`
vectors in `TextSpan::can_merge`. -/
def listIeeeEq : List F64 → List F64 → Bool
  | [], [] => true
  | x :: xs, y :: ys => F64.ieeeEq x y && listIeeeEq xs ys
  | _, _ => false

/-- Text alignment, mirroring `swf::TextAlign`. -/
inductive TextAlign
  | left
  | center
  | right
  | justify
deriving DecidableEq, Repr

/-- RGBA color, mirroring `swf::Color` (channels are `u8`, modelled as `Nat`). -/
structure Color where
  r : Nat
  g : Nat
  b : Nat
  a : Nat
deriving DecidableEq, Repr

/-- Sparse attribute bag, mirroring `TextFormat`: every field is optional and
`none` means "unset". -/
structure TextFormat where
  font : Option String
  size : Option F64
  color : Option Color
  align : Option TextAlign
  bold : Option Bool
  italic : Option Bool
  underline : Option Bool
  left_margin : Option F64
  right_margin : Option F64
  indent : Option F64
  block_indent : Option F64
  kerning : Option Bool
  leading : Option F64
  letter_spacing : Option F64
  tab_stops : Option (List F64)
  bullet : Option Bool
  url : Option String
  target : Option String
deriving DecidableEq, Repr

/-- Mirror of `impl Default for TextFormat`: every field unset. -/
def TextFormat.default : TextFormat :=
  { font := none
    size := none
    color := none
    align := none
    bold := none
    italic := none
    underline := none
    left_margin := none
    right_margin := none
    indent := none
    block_indent := none
    kerning := none
    leading := none
    letter_spacing := none
    tab_stops := none
    bullet := none
    url := none
    target := none }

instance : Inhabited TextFormat := ⟨TextFormat.default⟩

/-- Resolved span, mirroring `TextSpan`: a length plus a fully-resolved copy of
every `TextFormat` field. -/
structure TextSpan where
  span_length : Nat
  font : String
  size : F64
  color : Color
  align : TextAlign
  bold : Bool
  italic : Bool
  underline : Bool
  left_margin : F64
  right_margin : F64
  indent : F64
  block_indent : F64
  kerning : Bool
  leading : F64
  letter_spacing : F64
  tab_stops : List F64
  bullet : Bool
  url : String
  target : String
deriving DecidableEq, Repr

/-- Mirror of `impl Default for TextSpan`. Note the source sets the color's
alpha channel to `0`. -/
def TextSpan.default : TextSpan :=
  { span_length := 0
    font := ""
    size := F64.val 12
    color := { r := 0, g := 0, b := 0, a := 0 }
    align := TextAlign.left
    bold := false
    italic := false
    underline := false
    left_margin := F64.val 0
    right_margin := F64.val 0
    indent := F64.val 0
    block_indent := F64.val 0
    kerning := false
    leading := F64.val 0
    letter_spacing := F64.val 0
    tab_stops := []
    bullet := false
    url := ""
    target := "" }

instance : Inhabited TextSpan := ⟨TextSpan.default⟩

/-- Mirror of `TextSpan::with_length`. -/
def TextSpan.with_length (length : Nat) : TextSpan :=
  { TextSpan.default with span_length := length }

/-- Mirror of `TextSpan::set_text_format`: every field present in `tf`
overwrites the resolved field; unset fields leave the current value. -/
def TextSpan.set_text_format (s : TextSpan) (tf : TextFormat) : TextSpan :=
  { s with
    font := tf.font.getD s.font
    size := tf.size.getD s.size
    color := tf.color.getD s.color
    align := tf.align.getD s.align
    bold := tf.bold.getD s.bold
    italic := tf.italic.getD s.italic
    underline := tf.underline.getD s.underline
    left_margin := tf.left_margin.getD s.left_margin
    right_margin := tf.right_margin.getD s.right_margin
    indent := tf.indent.getD s.indent
    block_indent := tf.block_indent.getD s.block_indent
    kerning := tf.kerning.getD s.kerning
    leading := tf.leading.getD s.leading
    letter_spacing := tf.letter_spacing.getD s.letter_spacing
    tab_stops := tf.tab_stops.getD s.tab_stops
    bullet := tf.bullet.getD s.bullet
    url := tf.url.getD s.url
    target := tf.target.getD s.target }

/-- Mirror of `TextSpan::with_length_and_format`. -/
def TextSpan.with_length_and_format (length : Nat) (tf : TextFormat) : TextSpan :=
  (TextSpan.with_length length).set_text_format tf

/-- Mirror of `TextSpan::split_at`. The source mutates `self` in place and
returns the optional second span; here the (possibly truncated) first span is
returned alongside it. -/
def TextSpan.split_at (s : TextSpan) (split_point : Nat) : TextSpan × Option TextSpan :=
  if s.span_length ≤ split_point ∨ split_point = 0 then (s, none)
  else ({ s with span_length := split_point },
        some { s with span_length := s.span_length - split_point })

/-- Mirror of `TextSpan::can_merge`: conjunction of `==` on every resolved
field, length ignored. The `f64` fields (and the `tab_stops` vector) compare
with IEEE `==`, which the source uses under `#[allow(clippy::float_cmp)]`, so
a span holding a NaN is not format-equal even to a clone of itself. -/
def TextSpan.can_merge (s rhs : TextSpan) : Bool :=
  decide (s.font = rhs.font) && F64.ieeeEq s.size rhs.size &&
  decide (s.color = rhs.color) && decide (s.align = rhs.align) &&
  decide (s.bold = rhs.bold) && decide (s.italic = rhs.italic) &&
  decide (s.underline = rhs.underline) && F64.ieeeEq s.left_margin rhs.left_margin &&
  F64.ieeeEq s.right_margin rhs.right_margin && F64.ieeeEq s.indent rhs.indent &&
  F64.ieeeEq s.block_indent rhs.block_indent && decide (s.kerning = rhs.kerning) &&
  F64.ieeeEq s.leading rhs.leading && F64.ieeeEq s.letter_spacing rhs.letter_spacing &&
  listIeeeEq s.tab_stops rhs.tab_stops && decide (s.bullet = rhs.bullet) &&
  decide (s.url = rhs.url) && decide (s.target = rhs.target)

/-- Mirror of `TextSpan::merge`: on success the length is absorbed and `none`
is returned in the second component; on refusal `rhs` is handed back. -/
def TextSpan.merge (s rhs : TextSpan) : TextSpan × Option TextSpan :=
  if s.can_merge rhs then
    ({ s with span_length := s.span_length + rhs.span_length }, none)
  else (s, some rhs)

/-- Mirror of `TextSpan::get_text_format`. The source wraps each resolved
field in `Some`, except that the `bullet` field is populated from
`self.bold` (`bullet: Some(self.bold)` in the source). -/
def TextSpan.get_text_format (s : TextSpan) : TextFormat :=
  { font := some s.font
    size := some s.size
    color := some s.color
    align := some s.align
    bold := some s.bold
    italic := some s.italic
    underline := some s.underline
    left_margin := some s.left_margin
    right_margin := some s.right_margin
    indent := some s.indent
    block_indent := some s.block_indent
    kerning := some s.kerning
    leading := some s.leading
    letter_spacing := some s.letter_spacing
    tab_stops := some s.tab_stops
    bullet := some s.bold
    url := some s.url
    target := some s.target }

/-!
Markup model. The XML node data mirrors `XMLNodeData` in
`src/core/src/xml/tree.rs`; `XMLName` (defined outside the provided sources)
is modelled as a plain tag/attribute name string, per the spec's statement
that the core only needs tag names and per-name attribute lookup.
-/

/-- Mirror of `XMLNodeData` (tree.rs): text, comment, element (tag name,
attributes, children) and document root. Script objects, parent links and the
owning document are irrelevant to the formatting core and omitted. -/
inductive XMLNodeData where
  | Text (contents : List Char)
  | Comment (contents : List Char)
  | Element (tag_name : String) (attributes : List (String × String)) (children : List XMLNodeData)
  | DocumentRoot (children : List XMLNodeData)

/-- Mirror of `XMLNode::tag_name`: only elements have one. -/
def XMLNodeData.tag_name : XMLNodeData → Option String
  | XMLNodeData.Element name _ _ => some name
  | _ => none

/-- Mirror of the node's `is_text` test used by `lower_from_html`. -/
def XMLNodeData.is_text : XMLNodeData → Bool
  | XMLNodeData.Text _ => true
  | _ => false

/-- Modelled from the spec: attribute lookup by name (`attribute_value` lives
outside the provided sources; the spec requires a per-element map from
attribute name to value). -/
def XMLNodeData.attribute_value (node : XMLNodeData) (name : String) : Option String :=
  match node with
  | XMLNodeData.Element _ attrs _ => (attrs.find? (fun a => a.1 = name)).map (fun a => a.2)
  | _ => none

/-- Modelled from the spec: numeric attribute parsing standing in for Rust's
`str::parse::<f64>` (optional sign; `nan`, `inf`/`infinity` case-insensitively;
or digits with an optional fractional part; any other input fails, and per
the spec a parse failure leaves the field unset). -/
def parseF64 (s : String) : Option F64 :=
  let chars := s.toList
  let (neg, rest) :=
    match chars with
    | '-' :: cs => (true, cs)
    | '+' :: cs => (false, cs)
    | cs => (false, cs)
  let restStr := String.mk rest
  if restStr.toLower = "nan" then some F64.nan
  else if restStr.toLower = "inf" ∨ restStr.toLower = "infinity" then
    some (if neg then F64.negInf else F64.inf)
  else
    let intPart := rest.takeWhile (fun c => c.isDigit)
    let afterInt := rest.drop intPart.length
    let digitsVal (l : List Char) : Nat := l.foldl (fun acc c => acc * 10 + (c.toNat - 48)) 0
    let sign : Rat := if neg then -1 else 1
    match afterInt with
    | [] =>
      if intPart.isEmpty then none
      else some (F64.val (sign * (digitsVal intPart : Rat)))
    | '.' :: fracs =>
      if fracs.all (fun c => c.isDigit) ∧ ¬ (intPart.isEmpty ∧ fracs.isEmpty) then
        some (F64.val (sign * ((digitsVal intPart : Rat) +
          (digitsVal fracs : Rat) / ((10 : Rat) ^ fracs.length))))
      else none
    | _ => none

/-- Modelled from the spec: two-digit hexadecimal channel parsing standing in
for `u8::from_str_radix(v, 16)`; fails unless the string is a non-empty run of
hex digits (slices passed in always have length two). -/
def parseHexByte (s : String) : Option Nat :=
  let chars := s.toList
  let hexVal (c : Char) : Option Nat :=
    if c.isDigit then some (c.toNat - 48)
    else if 'a' ≤ c ∧ c ≤ 'f' then some (c.toNat - 97 + 10)
    else if 'A' ≤ c ∧ c ≤ 'F' then some (c.toNat - 65 + 10)
    else none
  if chars.isEmpty then none
  else chars.foldl (fun acc c => acc.bind (fun v => (hexVal c).map (fun h => v * 16 + h))) (some 0)

/-- Mirror of Rust string slicing `s.get(a..b)` as used for hex color
channels: yields the slice when the bounds are in range. -/
def strSlice (s : String) (a b : Nat) : Option String :=
  if a ≤ b ∧ b ≤ s.length then some (String.mk ((s.toList.drop a).take (b - a))) else none

/-- Mirror of `TextFormat::from_presentational_markup`: fixed per-tag rule
table. Note the `"p"` branch recognises only `left`, `center` and `right`
alignment values. -/
def TextFormat.from_presentational_markup (node : XMLNodeData) : TextFormat :=
  match node.tag_name with
  | some name =>
    if name = "p" then
      let tf := TextFormat.default
      match node.attribute_value "align" with
      | some v =>
        if v = "left" then { tf with align := some TextAlign.left }
        else if v = "center" then { tf with align := some TextAlign.center }
        else if v = "right" then { tf with align := some TextAlign.right }
        else tf
      | none => tf
    else if name = "a" then
      let tf := TextFormat.default
      let tf := match node.attribute_value "href" with
        | some href => { tf with url := some href }
        | none => tf
      match node.attribute_value "target" with
      | some t => { tf with target := some t }
      | none => tf
    else if name = "font" then
      let tf := TextFormat.default
      let tf := match node.attribute_value "face" with
        | some face => { tf with font := some face }
        | none => tf
      let tf := match node.attribute_value "size" with
        | some sz => { tf with size := parseF64 sz }
        | none => tf
      match node.attribute_value "color" with
      | some color =>
        if color.startsWith "#" then
          let rval := (strSlice color 1 3).bind parseHexByte
          let gval := (strSlice color 3 5).bind parseHexByte
          let bval := (strSlice color 5 7).bind parseHexByte
          match rval, gval, bval with
          | some r, some g, some b => { tf with color := some { r := r, g := g, b := b, a := 255 } }
          | _, _, _ => tf
        else tf
      | none => tf
    else if name = "b" then
      { TextFormat.default with bold := some true }
    else if name = "i" then
      { TextFormat.default with italic := some true }
    else if name = "u" then
      { TextFormat.default with underline := some true }
    else if name = "li" then
      { TextFormat.default with bullet := some true }
    else if name = "textformat" then
      let tf := TextFormat.default
      let tf := match node.attribute_value "leftmargin" with
        | some v => { tf with left_margin := parseF64 v }
        | none => tf
      let tf := match node.attribute_value "rightmargin" with
        | some v => { tf with right_margin := parseF64 v }
        | none => tf
      let tf := match node.attribute_value "indent" with
        | some v => { tf with indent := parseF64 v }
        | none => tf
      let tf := match node.attribute_value "blockindent" with
        | some v => { tf with block_indent := parseF64 v }
        | none => tf
      let tf := match node.attribute_value "leading" with
        | some v => { tf with leading := parseF64 v }
        | none => tf
      match node.attribute_value "tabstops" with
      | some v =>
        { tf with tab_stops := some ((v.splitOn ",").filterMap (fun e => parseF64 e.trim)) }
      | none => tf
    else TextFormat.default
  | none => TextFormat.default

/-!
The span table `FormatSpans` and its algorithms.
-/

/-- Span table, mirroring `FormatSpans`: text buffer, ordered span list and the
separate default format. -/
structure FormatSpans where
  text : List Char
  spans : List TextSpan
  default_format : TextFormat
deriving DecidableEq, Repr

/-- Mirror of `FormatSpans::from_str_and_format`. -/
def FormatSpans.from_str_and_format (text : List Char) (default_format : TextFormat) : FormatSpans :=
  { text := text
    spans := [(TextSpan.with_length text.length).set_text_format default_format]
    default_format := default_format }

/-- Mirror of `FormatSpans::from_str_and_spans`: raw parts, default format
defaulted, no normalization. -/
def FormatSpans.from_str_and_spans (text : List Char) (spans : List TextSpan) : FormatSpans :=
  { text := text, spans := spans, default_format := TextFormat.default }

/-- Total length implied by a span list (the accumulation at the top of
`FormatSpans::normalize`). -/
def totalSpanLength (spans : List TextSpan) : Nat :=
  (spans.map TextSpan.span_length).sum

/-- Mirror of the loop in `FormatSpans::resolve_position_as_span`: walk the
spans accumulating the covered length, returning span index and offset. -/
def resolveLoop (search_pos : Nat) : List TextSpan → Nat → Nat → Option (Nat × Nat)
  | [], _, _ => none
  | span :: rest, index, position =>
    if search_pos < position + span.span_length then some (index, search_pos - position)
    else resolveLoop search_pos rest (index + 1) (position + span.span_length)

/-- Mirror of `FormatSpans::resolve_position_as_span`. -/
def FormatSpans.resolve_position_as_span (fs : FormatSpans) (search_pos : Nat) : Option (Nat × Nat) :=
  resolveLoop search_pos fs.spans 0 0

/-- Mirror of `FormatSpans::ensure_span_break_at`. The source mutates the span
at the found index (shrinking it to the offset) and inserts the remainder just
after it; the pair returned here is the updated table plus the source's return
value. The inner `none` branch is unreachable (the source unwraps there),
since `resolve_position_as_span` always returns an in-range index. -/
def FormatSpans.ensure_span_break_at (fs : FormatSpans) (search_pos : Nat) : FormatSpans × Option Nat :=
  match fs.resolve_position_as_span search_pos with
  | none => (fs, none)
  | some (first_span_pos, break_index) =>
    if break_index = 0 then (fs, some first_span_pos)
    else
      match fs.spans[first_span_pos]? with
      | none => (fs, none)
      | some first_span =>
        let second_span := { first_span with span_length := first_span.span_length - break_index }
        let first' := { first_span with span_length := break_index }
        ({ fs with spans := fs.spans.take first_span_pos ++
            first' :: second_span :: fs.spans.drop (first_span_pos + 1) },
         some (first_span_pos + 1))

/-- Mirror of `FormatSpans::get_span_boundaries`. -/
def FormatSpans.get_span_boundaries (fs : FormatSpans) (fromPos toPos : Nat) : Nat × Nat :=
  let start_pos := ((fs.resolve_position_as_span fromPos).getD (0, 0)).1
  let end_pos := min
    (((fs.resolve_position_as_span (toPos - 1)).map
        (fun r => (r.1 + 1, r.2))).getD (fs.spans.length, 0)).1
    fs.spans.length
  (start_pos, end_pos)

/-- Mirror of the trailing-excess loop in `FormatSpans::normalize`, acting on
the reversed span list: shrink the last span if it alone exceeds the excess,
otherwise remove it and continue. -/
def trimBack : List TextSpan → Nat → List TextSpan
  | spans, 0 => spans
  | [], _ => []
  | last :: rest, deficiency =>
    if deficiency < last.span_length then
      { last with span_length := last.span_length - deficiency } :: rest
    else trimBack rest (deficiency - last.span_length)

/-- Mirror of the adjacent-pair pass in `FormatSpans::normalize`: absorb the
next span whenever it is format-equal or has zero length, else advance. `a` is
the span currently at the cursor. -/
def mergeInto (a : TextSpan) : List TextSpan → List TextSpan
  | [] => [a]
  | b :: rest =>
    if a.can_merge b || b.span_length == 0 then
      mergeInto { a with span_length := a.span_length + b.span_length } rest
    else a :: mergeInto b rest

/-- The adjacent-pair pass of `FormatSpans::normalize` over the whole list. -/
def mergePass : List TextSpan → List TextSpan
  | [] => []
  | a :: rest => mergeInto a rest

/-- Length-reconciliation phase of `FormatSpans::normalize` (the `match
span_length.cmp(&self.text.len())` block): append a default-formatted span on
a shortfall, trim the excess from the end on an overshoot. -/
def reconcileLength (spans : List TextSpan) (textLen : Nat) (default_format : TextFormat) : List TextSpan :=
  let span_length := totalSpanLength spans
  if span_length < textLen then
    spans ++ [TextSpan.with_length_and_format (textLen - span_length) default_format]
  else if textLen < span_length then
    (trimBack spans.reverse (span_length - textLen)).reverse
  else spans

/-- Span-list part of `FormatSpans::normalize` (the source mutates only
`self.spans`, reading the buffer length and the default format): length
reconciliation, leading zero-length removal, adjacent-pair merging, and
re-seeding an emptied list. -/
def normalizeSpans (spans : List TextSpan) (textLen : Nat) (default_format : TextFormat) : List TextSpan :=
  let spans1 := reconcileLength spans textLen default_format
  let spans2 := spans1.dropWhile (fun s => s.span_length == 0)
  let spans3 := mergePass spans2
  if spans3.isEmpty then [TextSpan.with_length_and_format textLen default_format]
  else spans3

/-- Mirror of `FormatSpans::normalize`. -/
def FormatSpans.normalize (fs : FormatSpans) : FormatSpans :=
  { fs with spans := normalizeSpans fs.spans fs.text.length fs.default_format }

/-- Mirror of `FormatSpans::set_text_format` (range-apply): break at both
ends, apply the format to every span in the boundary range, then normalize. -/
def FormatSpans.set_text_format (fs : FormatSpans) (fromPos toPos : Nat) (fmt : TextFormat) : FormatSpans :=
  let fs1 := (fs.ensure_span_break_at fromPos).1
  let fs2 := (fs1.ensure_span_break_at toPos).1
  let sb := fs2.get_span_boundaries fromPos toPos
  let spans' := fs2.spans.mapIdx (fun i s => if sb.1 ≤ i ∧ i < sb.2 then s.set_text_format fmt else s)
  let fs3 := { fs2 with spans := spans' }
  fs3.normalize

/-- Span-list phase of `FormatSpans::replace_text` (everything before the
buffer rebuild and the closing `normalize` call): when `fromPos` is inside the
buffer, break at both ends, take the replacement format from the span now at
the end boundary (the table default if none), and splice in a single new span;
otherwise append a default-formatted span. The source performs the splice
with `self.spans.drain(start_pos..end_pos)`, and `Vec::drain` panics when the
start exceeds the end (the end never exceeds the span count, being clamped by
`get_span_boundaries`); that panic, reachable on raw-parts states with
zero-length spans, is modelled as `none`. -/
def FormatSpans.replace_text_spans (fs : FormatSpans) (fromPos toPos : Nat) (w : List Char) : Option FormatSpans :=
  if fromPos < fs.text.length then
    let fsB := ((fs.ensure_span_break_at fromPos).1.ensure_span_break_at toPos).1
    let sb := fsB.get_span_boundaries fromPos toPos
    if sb.2 < sb.1 then none
    else
      let new_tf :=
        match fsB.spans[sb.2]? with
        | some span => span.get_text_format
        | none => fsB.default_format
      some { fsB with spans := fsB.spans.take sb.1 ++
          TextSpan.with_length_and_format w.length new_tf :: fsB.spans.drop sb.2 }
  else
    some { fs with spans := fs.spans ++
        [TextSpan.with_length_and_format w.length fs.default_format] }

/-- Mirror of `FormatSpans::replace_text`: degenerate ranges (`to < from`) are
silently ignored before anything fallible runs; otherwise the spans are
spliced (`none` modelling the `Vec::drain` panic, see `replace_text_spans`),
the buffer is rebuilt as `text[0..from] ++ w ++ text[to..]` (with
out-of-range slices clamped exactly as the source's `str::get` calls behave),
and the table is normalized. -/
def FormatSpans.replace_text (fs : FormatSpans) (fromPos toPos : Nat) (w : List Char) : Option FormatSpans :=
  if toPos < fromPos then some fs
  else
    (fs.replace_text_spans fromPos toPos w).map (fun fs1 =>
      ({ fs1 with text := fs.text.take fromPos ++ w ++ fs.text.drop toPos }).normalize)

/-- Mirror of `xml::Step` (defined outside the provided sources): document
walk events, modelled from the spec's enter/exit/text event stream. -/
inductive Step where
  | In (node : XMLNodeData)
  | Around (node : XMLNodeData)
  | Out (node : XMLNodeData)

/-- Modelled from the spec: document-order walk producing enter events for
container nodes, around events for leaves, and exit events (the `walk` method
lives outside the provided sources). -/
def walkNode : XMLNodeData → List Step
  | XMLNodeData.Text c => [Step.Around (XMLNodeData.Text c)]
  | XMLNodeData.Comment c => [Step.Around (XMLNodeData.Comment c)]
  | XMLNodeData.Element t a children =>
    Step.In (XMLNodeData.Element t a children) ::
      (children.attach.flatMap (fun c => walkNode c.1)) ++
      [Step.Out (XMLNodeData.Element t a children)]
  | XMLNodeData.DocumentRoot children =>
    Step.In (XMLNodeData.DocumentRoot children) ::
      (children.attach.flatMap (fun c => walkNode c.1)) ++
      [Step.Out (XMLNodeData.DocumentRoot children)]
termination_by n => sizeOf n
decreasing_by
  all_goals simp_wf
  all_goals (have h := List.sizeOf_lt_of_mem c.2; omega)

/-- Mirror of the event loop in `FormatSpans::lower_from_html`: push a
presentational format on enter, pop on exit; the text-node arm of the source
is an empty `TODO` and appends nothing. -/
def lowerLoop : List Step → List TextFormat → FormatSpans → FormatSpans
  | [], _, fs => fs
  | Step.In node :: rest, format_stack, fs =>
    lowerLoop rest (format_stack ++ [TextFormat.from_presentational_markup node]) fs
  | Step.Around node :: rest, format_stack, fs =>
    if node.is_text then lowerLoop rest format_stack fs
    else lowerLoop rest format_stack fs
  | Step.Out _ :: rest, format_stack, fs =>
    lowerLoop rest format_stack.dropLast fs

/-- Mirror of `FormatSpans::lower_from_html`, walking the document tree. -/
def FormatSpans.lower_from_html (fs : FormatSpans) (tree : XMLNodeData) : FormatSpans :=
  lowerLoop (walkNode tree) [] fs

/-- Resolved format at an absolute character position: the resolved format of
the span covering it (via `resolve_position_as_span` and
`TextSpan::get_text_format`), if any. -/
def FormatSpans.format_at (fs : FormatSpans) (p : Nat) : Option TextFormat :=
  (fs.resolve_position_as_span p).bind (fun r => (fs.spans[r.1]?).map TextSpan.get_text_format)

/-- Boolean check that no two index-adjacent spans are format-equal. -/
def pairwiseMergeFree : List TextSpan → Bool
  | [] => true
  | [_] => true
  | a :: b :: rest => !(a.can_merge b) && pairwiseMergeFree (b :: rest)

/-- The four table invariants of the spec, stated for a span list against a
buffer length: lengths sum to the buffer length; the list is non-empty; when
the buffer is empty the list is a single zero-length span, otherwise every
span has positive length; and no two adjacent spans are format-equal. -/
def spanInvariants (spans : List TextSpan) (textLen : Nat) : Prop :=
  totalSpanLength spans = textLen ∧
  spans ≠ [] ∧
  (textLen = 0 → spans.length = 1 ∧ ∀ s ∈ spans, s.span_length = 0) ∧
  (textLen ≠ 0 → ∀ s ∈ spans, 0 < s.span_length) ∧
  pairwiseMergeFree spans = true

/-- The table invariants for a `FormatSpans` state. -/
def FormatSpans.invariantsHold (fs : FormatSpans) : Prop :=
  spanInvariants fs.spans fs.text.length

instance instDecidableSpanInvariants (spans : List TextSpan) (textLen : Nat) :
    Decidable (spanInvariants spans textLen) := by
  unfold spanInvariants; infer_instance

instance instDecidableInvariantsHold (fs : FormatSpans) :
    Decidable fs.invariantsHold := by
  unfold FormatSpans.invariantsHold; infer_instance

/-- Structural restatement of the position-resolution loop, recursing on the
span list while subtracting covered lengths; proved equivalent to
`resolveLoop` below and used as the induction-friendly view. -/
def resolveRel : List TextSpan → Nat → Option (Nat × Nat)
  | [], _ => none
  | s :: rest, p =>
    if p < s.span_length then some (0, p)
    else (resolveRel rest (p - s.span_length)).map (fun r => (r.1 + 1, r.2))

/-- Character-by-character view of a span list: each span contributes
`span_length` copies of its resolved format. -/
def flattenFormats (spans : List TextSpan) : List TextFormat :=
  spans.flatMap (fun s => List.replicate s.span_length s.get_text_format)

/-- Concrete table for the `splice(5,6," ")` scenario: buffer `"Hello,World"`
with one default-formatted span. -/
def helloWorldTable : FormatSpans :=
  FormatSpans.from_str_and_format "Hello,World".toList TextFormat.default

/-- Concrete invariant-violating table built from raw parts: two characters of
text against a single length-5 span. -/
def rawPartsTable : FormatSpans :=
  FormatSpans.from_str_and_spans "ab".toList [TextSpan.with_length 5]

/-- Concrete span with `bold` and `bullet` disagreeing. -/
def boldNotBulletSpan : TextSpan :=
  { TextSpan.default with span_length := 3, bold := true }

/-- Concrete span whose `size` is NaN: IEEE `==` makes it not format-equal to
its own clone. -/
def nanSizeSpan : TextSpan :=
  { TextSpan.default with span_length := 2, size := F64.nan }

/-- Concrete two-span table over `"abcd"`: a bold span then a default span. -/
def twoSpanTable : FormatSpans :=
  FormatSpans.from_str_and_spans "abcd".toList
    [{ TextSpan.default with span_length := 2, bold := true },
     { TextSpan.default with span_length := 2 }]

/-!
Basic lemmas about spans and the position-resolution loop.
-/

/-- Applying an attribute bag never changes a span's length. -/
@[simp]
theorem TextSpan.set_text_format_span_length (s : TextSpan) (tf : TextFormat) :
    (s.set_text_format tf).span_length = s.span_length := rfl

/-- The span built by `with_length_and_format` has the requested length. -/
@[simp]
theorem TextSpan.with_length_and_format_span_length (n : Nat) (tf : TextFormat) :
    (TextSpan.with_length_and_format n tf).span_length = n := rfl

/-- Format-equality ignores the length of the right-hand span. -/
theorem TextSpan.can_merge_update_right (x y : TextSpan) (n : Nat) :
    x.can_merge { y with span_length := n } = x.can_merge y := rfl

/-- Format-equality ignores the length of the left-hand span. -/
theorem TextSpan.can_merge_update_left (x y : TextSpan) (n : Nat) :
    TextSpan.can_merge { x with span_length := n } y = x.can_merge y := rfl

/-- The resolved format ignores the span length. -/
theorem TextSpan.get_text_format_update (s : TextSpan) (n : Nat) :
    TextSpan.get_text_format { s with span_length := n } = s.get_text_format := rfl

@[simp]
theorem totalSpanLength_nil : totalSpanLength [] = 0 := rfl

@[simp]
theorem totalSpanLength_cons (s : TextSpan) (l : List TextSpan) :
    totalSpanLength (s :: l) = s.span_length + totalSpanLength l := by
  simp [totalSpanLength]

@[simp]
theorem totalSpanLength_append (l₁ l₂ : List TextSpan) :
    totalSpanLength (l₁ ++ l₂) = totalSpanLength l₁ + totalSpanLength l₂ := by
  simp [totalSpanLength]

@[simp]
theorem totalSpanLength_reverse (l : List TextSpan) :
    totalSpanLength l.reverse = totalSpanLength l := by
  simp [totalSpanLength, List.sum_reverse]

/-- The accumulator-style resolution loop agrees with the structural view. -/
theorem resolveLoop_eq_rel (sp : Nat) :
    ∀ (l : List TextSpan) (idx pos : Nat), pos ≤ sp →
      resolveLoop sp l idx pos = (resolveRel l (sp - pos)).map (fun r => (r.1 + idx, r.2)) := by
  intro l
  induction l with
  | nil => intro idx pos _; simp [resolveLoop, resolveRel]
  | cons s rest ih =>
    intro idx pos hpos
    simp only [resolveLoop, resolveRel]
    by_cases h : sp < pos + s.span_length
    · rw [if_pos h, if_pos (by omega)]
      simp only [Option.map_some']
      congr 2
      omega
    · rw [if_neg h, if_neg (by omega)]
      rw [ih (idx + 1) (pos + s.span_length) (by omega)]
      have harith : sp - (pos + s.span_length) = sp - pos - s.span_length := by omega
      rw [harith, Option.map_map]
      congr 1
      funext r
      simp only [Function.comp_apply]
      congr 1
      omega

/-- The table's position resolution is the structural view at offset `p`. -/
theorem resolve_position_eq (fs : FormatSpans) (p : Nat) :
    fs.resolve_position_as_span p = resolveRel fs.spans p := by
  rw [FormatSpans.resolve_position_as_span, resolveLoop_eq_rel p fs.spans 0 0 (Nat.zero_le p)]
  simp

/-- A successful resolution returns an index of an actual span and an offset
strictly inside it. -/
theorem resolveRel_some {l : List TextSpan} {p i k : Nat}
    (h : resolveRel l p = some (i, k)) :
    ∃ s, l[i]? = some s ∧ k < s.span_length ∧ k ≤ p := by
  induction l generalizing p i k with
  | nil => simp [resolveRel] at h
  | cons s rest ih =>
    simp only [resolveRel] at h
    by_cases hp : p < s.span_length
    · rw [if_pos hp] at h
      simp only [Option.some.injEq, Prod.mk.injEq] at h
      obtain ⟨hi, hk⟩ := h
      subst hi; subst hk
      exact ⟨s, by simp, hp, le_refl _⟩
    · rw [if_neg hp] at h
      rcases hrec : resolveRel rest (p - s.span_length) with _ | ⟨j, k'⟩
      · rw [hrec] at h; simp at h
      · rw [hrec] at h
        simp only [Option.map_some', Option.some.injEq, Prod.mk.injEq] at h
        obtain ⟨hi, hk⟩ := h
        subst hi; subst hk
        obtain ⟨s', hs', hk', hkp⟩ := ih hrec
        exact ⟨s', by simpa using hs', hk', by omega⟩

/-- Any position strictly below the total span length resolves. -/
theorem resolveRel_isSome {l : List TextSpan} {p : Nat}
    (h : p < totalSpanLength l) : (resolveRel l p).isSome := by
  induction l generalizing p with
  | nil => simp at h
  | cons s rest ih =>
    simp only [resolveRel]
    by_cases hp : p < s.span_length
    · rw [if_pos hp]; rfl
    · rw [if_neg hp]
      have : p - s.span_length < totalSpanLength rest := by
        simp only [totalSpanLength_cons] at h; omega
      rcases hrec : resolveRel rest (p - s.span_length) with _ | r
      · exact absurd (hrec ▸ ih this) (by simp)
      · simp

/-- Beyond the total span length nothing resolves. -/
theorem resolveRel_none {l : List TextSpan} {p : Nat}
    (h : totalSpanLength l ≤ p) : resolveRel l p = none := by
  induction l generalizing p with
  | nil => simp [resolveRel]
  | cons s rest ih =>
    simp only [totalSpanLength_cons] at h
    simp only [resolveRel, if_neg (by omega : ¬ p < s.span_length)]
    rw [ih (by omega)]
    rfl

@[simp]
theorem flattenFormats_nil : flattenFormats [] = [] := rfl

theorem flattenFormats_cons (s : TextSpan) (l : List TextSpan) :
    flattenFormats (s :: l) =
      List.replicate s.span_length s.get_text_format ++ flattenFormats l := by
  simp [flattenFormats]

theorem flattenFormats_append (l₁ l₂ : List TextSpan) :
    flattenFormats (l₁ ++ l₂) = flattenFormats l₁ ++ flattenFormats l₂ := by
  simp [flattenFormats]

/-- Looking up the covering span's resolved format is exactly indexing into
the character-by-character view. -/
theorem resolveRel_flatten (l : List TextSpan) (p : Nat) :
    ((resolveRel l p).bind (fun r => (l[r.1]?).map TextSpan.get_text_format)) =
      (flattenFormats l)[p]? := by
  induction l generalizing p with
  | nil => simp [resolveRel]
  | cons s rest ih =>
    rw [flattenFormats_cons]
    simp only [resolveRel]
    by_cases hp : p < s.span_length
    · rw [if_pos hp]
      simp [List.getElem?_append, List.length_replicate, hp, List.getElem?_replicate]
    · rw [if_neg hp, List.getElem?_append, if_neg (by simpa using hp), List.length_replicate,
        ← ih (p - s.span_length)]
      cases hrec : resolveRel rest (p - s.span_length) with
      | none => simp
      | some r => simp

/-- The format at a position is indexing into the character-by-character
view. -/
theorem format_at_eq_flatten (fs : FormatSpans) (p : Nat) :
    fs.format_at p = (flattenFormats fs.spans)[p]? := by
  rw [FormatSpans.format_at, resolve_position_eq, resolveRel_flatten]

/-!
Lemmas about the pieces of `normalize`.
-/

/-- Trimming the trailing excess removes exactly that much length. -/
theorem trimBack_sum (l : List TextSpan) :
    ∀ d, d ≤ totalSpanLength l → totalSpanLength (trimBack l d) = totalSpanLength l - d := by
  induction l with
  | nil =>
    intro d _
    cases d <;> simp [trimBack]
  | cons last rest ih =>
    intro d hd
    cases d with
    | zero => simp [trimBack]
    | succ n =>
      simp only [trimBack]
      by_cases hlt : n + 1 < last.span_length
      · rw [if_pos hlt]
        simp only [totalSpanLength_cons]
        omega
      · rw [if_neg hlt]
        rw [ih (n + 1 - last.span_length) (by simp only [totalSpanLength_cons] at hd; omega)]
        simp only [totalSpanLength_cons] at hd ⊢
        omega

/-- Dropping leading zero-length spans does not change the total length. -/
theorem sum_dropWhile_zero (l : List TextSpan) :
    totalSpanLength (l.dropWhile (fun s => s.span_length == 0)) = totalSpanLength l := by
  induction l with
  | nil => simp
  | cons s rest ih =>
    rw [List.dropWhile_cons]
    by_cases h : s.span_length = 0
    · rw [if_pos (by simpa using h)]
      simp [ih, h]
    · rw [if_neg (by simpa using h)]

/-- A list of total length zero is entirely dropped by the leading-zero pass. -/
theorem dropWhile_zero_eq_nil {l : List TextSpan} (h : totalSpanLength l = 0) :
    l.dropWhile (fun s => s.span_length == 0) = [] := by
  induction l with
  | nil => simp
  | cons s rest ih =>
    simp only [totalSpanLength_cons] at h
    rw [List.dropWhile_cons, if_pos (by simp; omega)]
    exact ih (by omega)

/-- After the leading-zero pass the list is empty or starts with a span of
nonzero length. -/
theorem dropWhile_zero_head (l : List TextSpan) :
    l.dropWhile (fun s => s.span_length == 0) = [] ∨
      ∃ hd tl, l.dropWhile (fun s => s.span_length == 0) = hd :: tl ∧ hd.span_length ≠ 0 := by
  induction l with
  | nil => left; simp
  | cons s rest ih =>
    rw [List.dropWhile_cons]
    by_cases h : s.span_length = 0
    · rw [if_pos (by simpa using h)]
      exact ih
    · rw [if_neg (by simpa using h)]
      exact Or.inr ⟨s, rest, rfl, h⟩

/-- The absorbing pass preserves total length. -/
theorem mergeInto_sum (l : List TextSpan) :
    ∀ a, totalSpanLength (mergeInto a l) = a.span_length + totalSpanLength l := by
  induction l with
  | nil => intro a; simp [mergeInto]
  | cons b rest ih =>
    intro a
    simp only [mergeInto]
    by_cases hc : (a.can_merge b || b.span_length == 0) = true
    · rw [if_pos hc, ih]
      simp only [totalSpanLength_cons]
      omega
    · rw [if_neg hc]
      simp only [totalSpanLength_cons, ih b]

/-- The absorbing pass never empties the list. -/
theorem mergeInto_ne_nil (l : List TextSpan) : ∀ a, mergeInto a l ≠ [] := by
  induction l with
  | nil => intro a; simp [mergeInto]
  | cons b rest ih =>
    intro a
    simp only [mergeInto]
    by_cases hc : (a.can_merge b || b.span_length == 0) = true
    · rw [if_pos hc]; exact ih _
    · rw [if_neg hc]; simp

/-- If the cursor span has nonzero length, every span surviving the absorbing
pass has nonzero length. -/
theorem mergeInto_pos (l : List TextSpan) :
    ∀ a, 0 < a.span_length → ∀ x ∈ mergeInto a l, 0 < x.span_length := by
  induction l with
  | nil =>
    intro a ha x hx
    simp only [mergeInto, List.mem_singleton] at hx
    subst hx; exact ha
  | cons b rest ih =>
    intro a ha x hx
    simp only [mergeInto] at hx
    by_cases hc : (a.can_merge b || b.span_length == 0) = true
    · rw [if_pos hc] at hx
      exact ih _ (show 0 < a.span_length + b.span_length by omega) x hx
    · rw [if_neg hc] at hx
      have hb : b.span_length ≠ 0 := by
        simp only [Bool.or_eq_true, beq_iff_eq] at hc
        exact fun h => hc (Or.inr h)
      rcases List.mem_cons.mp hx with hxa | hxr
      · subst hxa; exact ha
      · exact ih b (Nat.pos_of_ne_zero hb) x hxr

/-- The absorbing pass returns the cursor span (with possibly increased
length) as the head of its result. -/
theorem mergeInto_head (l : List TextSpan) :
    ∀ a, ∃ n tl, mergeInto a l = { a with span_length := n } :: tl := by
  induction l with
  | nil =>
    intro a
    exact ⟨a.span_length, [], by simp [mergeInto]⟩
  | cons b rest ih =>
    intro a
    simp only [mergeInto]
    by_cases hc : (a.can_merge b || b.span_length == 0) = true
    · rw [if_pos hc]
      obtain ⟨n, tl, h⟩ := ih { a with span_length := a.span_length + b.span_length }
      exact ⟨n, tl, h⟩
    · rw [if_neg hc]
      exact ⟨a.span_length, mergeInto b rest, by simp⟩

/-- The absorbing pass leaves no adjacent format-equal pair. -/
theorem mergeInto_mergeFree (l : List TextSpan) :
    ∀ a, pairwiseMergeFree (mergeInto a l) = true := by
  induction l with
  | nil => intro a; simp [mergeInto, pairwiseMergeFree]
  | cons b rest ih =>
    intro a
    simp only [mergeInto]
    by_cases hc : (a.can_merge b || b.span_length == 0) = true
    · rw [if_pos hc]; exact ih _
    · rw [if_neg hc]
      have hcm : a.can_merge b = false := by
        simp only [Bool.or_eq_true] at hc
        exact Bool.eq_false_iff.mpr (fun h => hc (Or.inl h))
      obtain ⟨n, tl, hh⟩ := mergeInto_head rest b
      have hrest := ih b
      rw [hh] at hrest ⊢
      simp only [pairwiseMergeFree, TextSpan.can_merge_update_right, hcm, hrest]
      rfl

/-- A list already free of merges and of zero-length continuations passes the
absorbing pass unchanged. -/
theorem mergeInto_id (l : List TextSpan) :
    ∀ a, pairwiseMergeFree (a :: l) = true → (∀ x ∈ l, x.span_length ≠ 0) →
      mergeInto a l = a :: l := by
  induction l with
  | nil => intro a _ _; simp [mergeInto]
  | cons b rest ih =>
    intro a hp hz
    simp only [pairwiseMergeFree, Bool.and_eq_true, Bool.not_eq_true'] at hp
    obtain ⟨hcm, hrest⟩ := hp
    have hb : b.span_length ≠ 0 := hz b (by simp)
    simp only [mergeInto]
    rw [if_neg (by simp [hcm, hb])]
    rw [ih b hrest (fun x hx => hz x (by simp [hx]))]

/-- The length-reconciliation phase makes the spans sum to the buffer
length. -/
theorem reconcileLength_sum (spans : List TextSpan) (textLen : Nat) (d : TextFormat) :
    totalSpanLength (reconcileLength spans textLen d) = textLen := by
  simp only [reconcileLength]
  by_cases h1 : totalSpanLength spans < textLen
  · rw [if_pos h1]
    simp only [totalSpanLength_append, totalSpanLength_cons, totalSpanLength_nil,
      TextSpan.with_length_and_format_span_length]
    omega
  · rw [if_neg h1]
    by_cases h2 : textLen < totalSpanLength spans
    · rw [if_pos h2, totalSpanLength_reverse,
        trimBack_sum spans.reverse (totalSpanLength spans - textLen)
          (by rw [totalSpanLength_reverse]; omega)]
      rw [totalSpanLength_reverse]
      omega
    · rw [if_neg h2]; omega

/-- On an empty buffer, normalization always produces the single zero-length
default-formatted span. -/
theorem normalizeSpans_empty_text (spans : List TextSpan) (d : TextFormat) :
    normalizeSpans spans 0 d = [TextSpan.with_length_and_format 0 d] := by
  simp only [normalizeSpans]
  rw [dropWhile_zero_eq_nil (reconcileLength_sum spans 0 d)]
  simp [mergePass]

/-- Normalization establishes all four table invariants. -/
theorem normalizeSpans_invariants (spans : List TextSpan) (textLen : Nat) (d : TextFormat) :
    spanInvariants (normalizeSpans spans textLen d) textLen := by
  by_cases ht : textLen = 0
  · subst ht
    rw [normalizeSpans_empty_text]
    refine ⟨by simp, by simp, fun _ => ⟨rfl, by simp⟩, fun h => absurd rfl h, rfl⟩
  · simp only [normalizeSpans]
    have h1 : totalSpanLength (reconcileLength spans textLen d) = textLen :=
      reconcileLength_sum spans textLen d
    rcases dropWhile_zero_head (reconcileLength spans textLen d) with hnil | ⟨hd, tl, hdt, hhd⟩
    · exfalso
      have h2 : totalSpanLength
          ((reconcileLength spans textLen d).dropWhile (fun s => s.span_length == 0)) = textLen := by
        rw [sum_dropWhile_zero, h1]
      rw [hnil] at h2
      simp at h2
      exact ht h2.symm
    · rw [hdt]
      simp only [mergePass]
      have hne := mergeInto_ne_nil tl hd
      rw [if_neg (by simpa [List.isEmpty_iff] using hne)]
      have hsum2 : totalSpanLength (hd :: tl) = textLen := by
        rw [← hdt, sum_dropWhile_zero, h1]
      refine ⟨?_, hne, fun h0 => absurd h0 ht, fun _ => ?_, mergeInto_mergeFree tl hd⟩
      · rw [mergeInto_sum]
        simpa using hsum2
      · exact mergeInto_pos tl hd (Nat.pos_of_ne_zero hhd)

/-- A state already satisfying the invariants (and, when the buffer is empty,
holding exactly the default zero-length span) is a fixed point of
normalization. -/
theorem normalizeSpans_fix (spans : List TextSpan) (textLen : Nat) (d : TextFormat)
    (hinv : spanInvariants spans textLen)
    (hempty : textLen = 0 → spans = [TextSpan.with_length_and_format 0 d]) :
    normalizeSpans spans textLen d = spans := by
  obtain ⟨hsum, hne, _, hpos, hmf⟩ := hinv
  by_cases ht : textLen = 0
  · subst ht
    rw [normalizeSpans_empty_text, hempty rfl]
  · simp only [normalizeSpans]
    have hrec : reconcileLength spans textLen d = spans := by
      simp only [reconcileLength, hsum]
      simp
    rw [hrec]
    obtain ⟨hd, tl, rfl⟩ : ∃ hd tl, spans = hd :: tl := by
      cases spans with
      | nil => exact absurd rfl hne
      | cons hd tl => exact ⟨hd, tl, rfl⟩
    have hhd : hd.span_length ≠ 0 :=
      Nat.pos_iff_ne_zero.mp (hpos ht hd (by simp))
    have hcond : ¬((hd.span_length == 0) = true) := by simpa using hhd
    rw [List.dropWhile_cons, if_neg hcond]
    simp only [mergePass]
    rw [mergeInto_id tl hd hmf
      (fun x hx => Nat.pos_iff_ne_zero.mp (hpos ht x (List.mem_cons_of_mem hd hx)))]
    simp

/-- Normalizing a table establishes the invariants. -/
theorem normalize_invariantsHold (fs : FormatSpans) : (fs.normalize).invariantsHold :=
  normalizeSpans_invariants fs.spans fs.text.length fs.default_format

/-- Normalization is idempotent at the span-list level. -/
theorem normalizeSpans_idem (spans : List TextSpan) (textLen : Nat) (d : TextFormat) :
    normalizeSpans (normalizeSpans spans textLen d) textLen d = normalizeSpans spans textLen d :=
  normalizeSpans_fix _ _ _ (normalizeSpans_invariants spans textLen d)
    (fun h0 => by subst h0; exact normalizeSpans_empty_text spans d)

/-- A list splits around any index it actually contains. -/
theorem spans_decomp {l : List TextSpan} {i : Nat} {s : TextSpan} (h : l[i]? = some s) :
    l = l.take i ++ s :: l.drop (i + 1) := by
  obtain ⟨hlt, hval⟩ := List.getElem?_eq_some.mp h
  conv_lhs => rw [← List.take_append_drop i l]
  rw [List.drop_eq_getElem_cons hlt, hval]

/-- Full effect of `ensure_span_break_at`: the text and default format are
untouched, the total span length and the character-by-character format view
are preserved, and structurally either nothing changes or exactly one span is
replaced by two spans of the same total length and the same resolved
format. -/
theorem ensure_span_break_effect (fs : FormatSpans) (pos : Nat) :
    (fs.ensure_span_break_at pos).1.text = fs.text ∧
    (fs.ensure_span_break_at pos).1.default_format = fs.default_format ∧
    totalSpanLength (fs.ensure_span_break_at pos).1.spans = totalSpanLength fs.spans ∧
    flattenFormats (fs.ensure_span_break_at pos).1.spans = flattenFormats fs.spans ∧
    ((fs.ensure_span_break_at pos).1.spans = fs.spans ∨
      ∃ i s s1 s2, fs.spans[i]? = some s ∧
        (fs.ensure_span_break_at pos).1.spans =
          fs.spans.take i ++ s1 :: s2 :: fs.spans.drop (i + 1) ∧
        s1.span_length + s2.span_length = s.span_length ∧
        s1.get_text_format = s.get_text_format ∧
        s2.get_text_format = s.get_text_format) := by
  simp only [FormatSpans.ensure_span_break_at, resolve_position_eq]
  split
  · exact ⟨rfl, rfl, rfl, rfl, Or.inl rfl⟩
  · rename_i i k heq
    split
    · exact ⟨rfl, rfl, rfl, rfl, Or.inl rfl⟩
    · rename_i hk
      split
      · exact ⟨rfl, rfl, rfl, rfl, Or.inl rfl⟩
      · rename_i s hs
        have hks : k < s.span_length := by
          obtain ⟨s', hs', hks', _⟩ := resolveRel_some heq
          rw [hs] at hs'
          cases Option.some.inj hs'
          exact hks'
        refine ⟨rfl, rfl, ?_, ?_, Or.inr ⟨i, s, _, _, hs, rfl, by simp; omega, rfl, rfl⟩⟩
        · conv_rhs => rw [spans_decomp hs]
          simp only [totalSpanLength_append, totalSpanLength_cons]
          simp
          omega
        · conv_rhs => rw [spans_decomp hs]
          simp only [flattenFormats_append, flattenFormats_cons, TextSpan.get_text_format_update]
          have hrep : List.replicate s.span_length s.get_text_format =
              List.replicate k s.get_text_format ++
                List.replicate (s.span_length - k) s.get_text_format := by
            rw [← List.replicate_add]
            congr 1
            omega
          rw [hrep]
          simp
          rw [List.replicate_add, List.append_assoc]

/-- The start index returned by `get_span_boundaries` never exceeds the span
count. -/
theorem get_span_boundaries_start_le (fs : FormatSpans) (a b : Nat) :
    (fs.get_span_boundaries a b).1 ≤ fs.spans.length := by
  simp only [FormatSpans.get_span_boundaries, resolve_position_eq]
  cases hr : resolveRel fs.spans a with
  | none => simp
  | some r =>
    rcases r with ⟨i, k⟩
    obtain ⟨s, hs, _, _⟩ := resolveRel_some hr
    simpa using le_of_lt (List.getElem?_eq_some.mp hs).1

/-- `FormatSpans::set_text_format` re-establishes the invariants: it always
funnels through `normalize`. -/
theorem set_text_format_invariants (fs : FormatSpans) (a b : Nat) (fmt : TextFormat) :
    (fs.set_text_format a b fmt).invariantsHold := by
  simp only [FormatSpans.set_text_format]
  exact normalize_invariantsHold _

/-- Every state `FormatSpans::replace_text` returns on a non-degenerate range
has been funnelled through `normalize`, which re-establishes the
invariants. -/
theorem replace_text_invariants (fs : FormatSpans) (a b : Nat) (w : List Char)
    (fs' : FormatSpans) (h : ¬ b < a) (heq : fs.replace_text a b w = some fs') :
    fs'.invariantsHold := by
  simp only [FormatSpans.replace_text] at heq
  rw [if_neg h] at heq
  obtain ⟨fs1, _, hmap⟩ := Option.map_eq_some'.mp heq
  rw [← hmap]
  exact normalize_invariantsHold _

/-- `FormatSpans::replace_text` on a degenerate range is an exact panic-free
no-op. -/
theorem replace_text_degenerate (fs : FormatSpans) (a b : Nat) (w : List Char) (h : b < a) :
    fs.replace_text a b w = some fs := by
  simp [FormatSpans.replace_text, if_pos h]

/-- The modelled drain panic is reachable through the public surface: on the
raw-parts state with spans of lengths 1, 0, 1 over `"ab"`, `replace_text(1,
1, "x")` resolves the start boundary past the zero-length span (span index 2)
while the end boundary computes to 1, so the source panics in
`Vec::drain(2..1)` and the model returns `none`. -/
theorem replace_text_drain_panic_example :
    FormatSpans.replace_text
      (FormatSpans.from_str_and_spans "ab".toList
        [TextSpan.with_length 1, TextSpan.with_length 0, TextSpan.with_length 1])
      1 1 "x".toList = none := by decide

/-- The lowering event loop returns the table unchanged: the text-node arm of
the source is an unimplemented `TODO`, and no other arm touches the table. -/
theorem lowerLoop_id (steps : List Step) : ∀ (stack : List TextFormat) (fs : FormatSpans),
    lowerLoop steps stack fs = fs := by
  induction steps with
  | nil => intro stack fs; rfl
  | cons st rest ih =>
    intro stack fs
    cases st with
    | In node => exact ih _ _
    | Around node =>
      simp only [lowerLoop, ite_self]
      exact ih _ _
    | Out node => exact ih _ _

/-- In the interior case of `replace_text`, the span spliced in at the start
boundary is built from the resolved format of the span at the end boundary
when one exists, and from the table's default format otherwise. -/
theorem replace_text_spans_format (fs : FormatSpans) (fromPos toPos : Nat) (w : List Char)
    (fs1 : FormatSpans) (h2 : fromPos < fs.text.length)
    (heq : fs.replace_text_spans fromPos toPos w = some fs1) :
    fs1.spans[(((fs.ensure_span_break_at fromPos).1.ensure_span_break_at toPos).1.get_span_boundaries fromPos toPos).1]? =
      some (TextSpan.with_length_and_format w.length
        (match ((fs.ensure_span_break_at fromPos).1.ensure_span_break_at toPos).1.spans[(((fs.ensure_span_break_at fromPos).1.ensure_span_break_at toPos).1.get_span_boundaries fromPos toPos).2]? with
         | some span => span.get_text_format
         | none => ((fs.ensure_span_break_at fromPos).1.ensure_span_break_at toPos).1.default_format)) := by
  simp only [FormatSpans.replace_text_spans] at heq
  rw [if_pos h2] at heq
  split at heq
  · exact absurd heq (by simp)
  · cases Option.some.inj heq
    have hle := get_span_boundaries_start_le
      ((fs.ensure_span_break_at fromPos).1.ensure_span_break_at toPos).1 fromPos toPos
    have hlen : ((((fs.ensure_span_break_at fromPos).1.ensure_span_break_at toPos).1.spans).take
        ((((fs.ensure_span_break_at fromPos).1.ensure_span_break_at toPos).1.get_span_boundaries fromPos toPos).1)).length =
        (((fs.ensure_span_break_at fromPos).1.ensure_span_break_at toPos).1.get_span_boundaries fromPos toPos).1 := by
      simp [List.length_take, Nat.min_eq_left hle]
    rw [List.getElem?_append_right (le_of_eq hlen), hlen]
    simp

/-- Characterization of the `"p"` branch of `from_presentational_markup`. -/
theorem from_p_markup (attrs : List (String × String)) (children : List XMLNodeData) :
    TextFormat.from_presentational_markup (XMLNodeData.Element "p" attrs children) =
      (match (XMLNodeData.Element "p" attrs children).attribute_value "align" with
       | some v =>
         if v = "left" then { TextFormat.default with align := some TextAlign.left }
         else if v = "center" then { TextFormat.default with align := some TextAlign.center }
         else if v = "right" then { TextFormat.default with align := some TextAlign.right }
         else TextFormat.default
       | none => TextFormat.default) := rfl

/-!
Claim theorems.
-/

/-- C1 (counterexample): the claim as stated fails, because
`replace_text` with a degenerate range (`to < from`) returns before calling
`normalize`. On the raw-parts state `rawPartsTable` (text `"ab"`, a single
length-5 span), the public mutating call `replace_text(8, 5, "")` returns the
state unchanged, with the table invariants still violated. -/
theorem C1_counterexample :
    rawPartsTable.replace_text 8 5 [] = some rawPartsTable ∧
    ¬ rawPartsTable.invariantsHold := by decide

/-- C1 (amended): after `normalize` itself and after `set_text_format`
(apply_range), all four table invariants hold for every starting state; after
`replace_text` (splice) with `from ≤ to` they hold in every state the call
returns (the source's `Vec::drain` panics instead of returning on raw-parts
states whose computed start boundary exceeds the end boundary); and
`replace_text` with `to < from` returns the original state unchanged, so it
re-establishes nothing on states that violated the invariants. -/
theorem C1_invariants_after_mutators :
    (∀ fs : FormatSpans, (fs.normalize).invariantsHold) ∧
    (∀ (fs : FormatSpans) (a b : Nat) (fmt : TextFormat),
      (fs.set_text_format a b fmt).invariantsHold) ∧
    (∀ (fs : FormatSpans) (a b : Nat) (w : List Char) (fs' : FormatSpans), a ≤ b →
      fs.replace_text a b w = some fs' → fs'.invariantsHold) ∧
    (∀ (fs : FormatSpans) (a b : Nat) (w : List Char), b < a →
      fs.replace_text a b w = some fs) :=
  ⟨normalize_invariantsHold,
   set_text_format_invariants,
   fun fs a b w fs' h heq => replace_text_invariants fs a b w fs' (by omega) heq,
   replace_text_degenerate⟩

/-- C1 (witness): the amended theorem applied at concrete inputs. -/
theorem C1_witness :
    ((helloWorldTable.replace_text 0 1 "x".toList).getD helloWorldTable).invariantsHold ∧
    helloWorldTable.replace_text 9 5 "x".toList = some helloWorldTable :=
  ⟨C1_invariants_after_mutators.2.2.1 helloWorldTable 0 1 "x".toList
     ((helloWorldTable.replace_text 0 1 "x".toList).getD helloWorldTable) (by decide) (by decide),
   C1_invariants_after_mutators.2.2.2 helloWorldTable 9 5 "x".toList (by decide)⟩

/-- C2: in `replace_text(from, to, with)` with `from ≤ to` and `from` strictly
inside the buffer, whenever the span splice is performed (the source's
`Vec::drain` not having panicked), the span spliced in for the replacement
text is built from the resolved format of the span at the end boundary (after
breaks at `from` and `to`) when such a span exists, else from the table's
default format; and concretely, `splice(5,6," ")` on `"Hello,World"` yields
buffer `"Hello World"`, preserves the length invariant, and the format at the
replacement position equals the pre-splice format of position 6. -/
theorem C2_replacement_span_format :
    (∀ (fs : FormatSpans) (fromPos toPos : Nat) (w : List Char) (fs1 : FormatSpans),
      fromPos ≤ toPos → fromPos < fs.text.length →
      fs.replace_text_spans fromPos toPos w = some fs1 →
      fs1.spans[(((fs.ensure_span_break_at fromPos).1.ensure_span_break_at toPos).1.get_span_boundaries fromPos toPos).1]? =
        some (TextSpan.with_length_and_format w.length
          (match ((fs.ensure_span_break_at fromPos).1.ensure_span_break_at toPos).1.spans[(((fs.ensure_span_break_at fromPos).1.ensure_span_break_at toPos).1.get_span_boundaries fromPos toPos).2]? with
           | some span => span.get_text_format
           | none => ((fs.ensure_span_break_at fromPos).1.ensure_span_break_at toPos).1.default_format))) ∧
    Option.map FormatSpans.text (helloWorldTable.replace_text 5 6 " ".toList) =
      some "Hello World".toList ∧
    Option.map (fun r => totalSpanLength r.spans) (helloWorldTable.replace_text 5 6 " ".toList) =
      Option.map (fun r => r.text.length) (helloWorldTable.replace_text 5 6 " ".toList) ∧
    Option.map (fun r => r.format_at 5) (helloWorldTable.replace_text 5 6 " ".toList) =
      some (helloWorldTable.format_at 6) :=
  ⟨fun fs fromPos toPos w fs1 _ h2 heq => replace_text_spans_format fs fromPos toPos w fs1 h2 heq,
   by decide, by decide, by decide⟩

/-- C2 (witness): the general clause applied to the scenario input. -/
theorem C2_witness :
    ((helloWorldTable.replace_text_spans 5 6 " ".toList).getD helloWorldTable).spans[(((helloWorldTable.ensure_span_break_at 5).1.ensure_span_break_at 6).1.get_span_boundaries 5 6).1]? =
      some (TextSpan.with_length_and_format " ".toList.length
        (match ((helloWorldTable.ensure_span_break_at 5).1.ensure_span_break_at 6).1.spans[(((helloWorldTable.ensure_span_break_at 5).1.ensure_span_break_at 6).1.get_span_boundaries 5 6).2]? with
         | some span => span.get_text_format
         | none => ((helloWorldTable.ensure_span_break_at 5).1.ensure_span_break_at 6).1.default_format)) :=
  C2_replacement_span_format.1 helloWorldTable 5 6 " ".toList
    ((helloWorldTable.replace_text_spans 5 6 " ".toList).getD helloWorldTable)
    (by decide) (by decide) (by decide)

/-- C3: the claim is right and the code is wrong. `resolve()`
(`get_text_format`) is total and wraps every field as set, but its `bullet`
field is populated from the span's `bold` flag (`bullet: Some(self.bold)`),
not from the span's `bullet` flag: on a span with `bold = true` and
`bullet = false`, the resolved `bullet` is `some true`. -/
theorem C3_resolve_bullet_from_bold :
    (∀ s : TextSpan, s.get_text_format.bullet = some s.bold) ∧
    boldNotBulletSpan.bullet = false ∧
    boldNotBulletSpan.get_text_format.bullet = some true ∧
    boldNotBulletSpan.get_text_format.bullet ≠ some boldNotBulletSpan.bullet :=
  ⟨fun _ => rfl, rfl, rfl, by decide⟩

/-- C4: `replace_text` with `to < from` raises no error — it returns normally
(`some`, with the early return preceding every fallible operation) — and
leaves the whole table (text buffer and span list) unchanged. -/
theorem C4_degenerate_range_noop (fs : FormatSpans) (fromPos toPos : Nat) (w : List Char)
    (h : toPos < fromPos) : fs.replace_text fromPos toPos w = some fs :=
  replace_text_degenerate fs fromPos toPos w h

/-- C4 (witness): the theorem applied at `splice(from=8, to=5, "xyz")`. -/
theorem C4_witness :
    (5 : Nat) < 8 ∧ helloWorldTable.replace_text 8 5 "xyz".toList = some helloWorldTable :=
  ⟨by decide, C4_degenerate_range_noop helloWorldTable 8 5 "xyz".toList (by decide)⟩

/-- C5: `normalize` is idempotent: calling it twice in a row produces exactly
the state (in particular, the span list) produced by calling it once. -/
theorem C5_normalize_idempotent (fs : FormatSpans) :
    (fs.normalize).normalize = fs.normalize := by
  show ({ fs with spans := normalizeSpans (normalizeSpans fs.spans fs.text.length fs.default_format) fs.text.length fs.default_format } : FormatSpans) = { fs with spans := normalizeSpans fs.spans fs.text.length fs.default_format }
  rw [normalizeSpans_idem]

/-- C6 (counterexample): the claim as stated fails, because `can_merge`
compares `f64` fields with IEEE `==`: a span whose `size` is NaN (obtainable
through the public `with_length_and_format` with a caller-supplied bag, or a
`"NaN"` attribute parse) splits into two clones whose merge is refused, the
second span being handed back instead of absorbed. -/
theorem C6_counterexample :
    0 < 1 ∧ 1 < nanSizeSpan.span_length ∧
    nanSizeSpan.split_at 1 =
      ({ nanSizeSpan with span_length := 1 }, some { nanSizeSpan with span_length := 1 }) ∧
    (({ nanSizeSpan with span_length := 1 } : TextSpan).merge
        { nanSizeSpan with span_length := 1 }).2 =
      some { nanSizeSpan with span_length := 1 } := by decide

/-- C6 (amended): for every `TextSpan` that is format-equal to itself (that
is, none of its `f64` fields is NaN, so that the source's IEEE `==`
comparisons hold reflexively) and every `0 < point < s.span_length`,
`split_at(point)` yields a second span, and merging the truncated first span
with it succeeds (returns nothing) and reconstructs a span format-equal to
`s` with `s`'s original length. -/
theorem C6_split_merge_duality (s : TextSpan) (point : Nat)
    (hself : s.can_merge s = true) (h1 : 0 < point) (h2 : point < s.span_length) :
    ∃ first second,
      s.split_at point = (first, some second) ∧
      (first.merge second).2 = none ∧
      ((first.merge second).1).can_merge s = true ∧
      ((first.merge second).1).span_length = s.span_length := by
  have hcm : TextSpan.can_merge { s with span_length := point }
      { s with span_length := s.span_length - point } = true := by
    rw [TextSpan.can_merge_update_right, TextSpan.can_merge_update_left]
    exact hself
  refine ⟨{ s with span_length := point }, { s with span_length := s.span_length - point },
    ?_, ?_, ?_, ?_⟩
  · simp only [TextSpan.split_at]
    rw [if_neg (by omega)]
  · simp [TextSpan.merge, hcm]
  · simp only [TextSpan.merge, hcm, if_true]
    rw [TextSpan.can_merge_update_left]
    exact hself
  · simp only [TextSpan.merge, hcm, if_true]
    show point + (s.span_length - point) = s.span_length
    omega

/-- C6 (witness): the amended theorem applied to a concrete NaN-free span of
length 5 split at point 2. -/
theorem C6_witness :
    (TextSpan.with_length 5).can_merge (TextSpan.with_length 5) = true ∧
    0 < 2 ∧ 2 < (TextSpan.with_length 5).span_length ∧
    (∃ first second,
      (TextSpan.with_length 5).split_at 2 = (first, some second) ∧
      (first.merge second).2 = none ∧
      ((first.merge second).1).can_merge (TextSpan.with_length 5) = true ∧
      ((first.merge second).1).span_length = (TextSpan.with_length 5).span_length) :=
  ⟨by decide, by decide, by decide,
   C6_split_merge_duality (TextSpan.with_length 5) 2 (by decide) (by decide) (by decide)⟩

/-- C7 (counterexample): the claim as stated fails, because the `"p"` branch
of `from_presentational_markup` recognises only `left`, `center` and `right`:
the value `justify` is not mapped, and the alignment stays unset. -/
theorem C7_counterexample :
    (TextFormat.from_presentational_markup
      (XMLNodeData.Element "p" [("align", "justify")] [])).align ≠ some TextAlign.justify := by
  decide

/-- C7 (amended): for a `"p"` element, `from_presentational_markup` maps the
`align` attribute through the set {left, center, right} to the alignment
field; `justify`, any other unrecognized value, or a missing attribute leaves
the alignment unset; and all other fields are unset. -/
theorem C7_p_align_amended (attrs : List (String × String)) (children : List XMLNodeData) :
    ((XMLNodeData.Element "p" attrs children).attribute_value "align" = some "left" →
      TextFormat.from_presentational_markup (XMLNodeData.Element "p" attrs children) =
        { TextFormat.default with align := some TextAlign.left }) ∧
    ((XMLNodeData.Element "p" attrs children).attribute_value "align" = some "center" →
      TextFormat.from_presentational_markup (XMLNodeData.Element "p" attrs children) =
        { TextFormat.default with align := some TextAlign.center }) ∧
    ((XMLNodeData.Element "p" attrs children).attribute_value "align" = some "right" →
      TextFormat.from_presentational_markup (XMLNodeData.Element "p" attrs children) =
        { TextFormat.default with align := some TextAlign.right }) ∧
    ((XMLNodeData.Element "p" attrs children).attribute_value "align" = none →
      TextFormat.from_presentational_markup (XMLNodeData.Element "p" attrs children) =
        TextFormat.default) ∧
    (∀ v, (XMLNodeData.Element "p" attrs children).attribute_value "align" = some v →
      v ≠ "left" → v ≠ "center" → v ≠ "right" →
      TextFormat.from_presentational_markup (XMLNodeData.Element "p" attrs children) =
        TextFormat.default) := by
  refine ⟨fun h => ?_, fun h => ?_, fun h => ?_, fun h => ?_, fun v h hv1 hv2 hv3 => ?_⟩ <;>
    rw [from_p_markup, h]
  · simp
  · simp
  · simp
  · simp [hv1, hv2, hv3]

/-- C7 (witness): the amended theorem applied at concrete attribute lists. -/
theorem C7_witness :
    TextFormat.from_presentational_markup (XMLNodeData.Element "p" [("align", "center")] []) =
      { TextFormat.default with align := some TextAlign.center } ∧
    TextFormat.from_presentational_markup (XMLNodeData.Element "p" [("align", "justify")] []) =
      TextFormat.default :=
  ⟨(C7_p_align_amended [("align", "center")] []).2.1 (by decide),
   (C7_p_align_amended [("align", "justify")] []).2.2.2.2 "justify" (by decide)
     (by decide) (by decide) (by decide)⟩

/-- C8 (counterexample): the claim as stated fails, because the default
span's color is transparent black (`a = 0` in the source), not opaque
black. -/
theorem C8_counterexample :
    TextSpan.default.color ≠ { r := 0, g := 0, b := 0, a := 255 } := by decide

/-- C8 (amended): the neutral/default resolved style has margins and indent 0,
size 12, color transparent black (all channels and alpha 0), alignment left,
kerning, bold, italic and underline false, empty tab stops, and empty url and
target; and `with_length_and_format` falls back to exactly these values for
every field left unset in the supplied attribute bag. -/
theorem C8_default_neutral_style :
    TextSpan.default.left_margin = F64.val 0 ∧
    TextSpan.default.right_margin = F64.val 0 ∧
    TextSpan.default.indent = F64.val 0 ∧
    TextSpan.default.size = F64.val 12 ∧
    TextSpan.default.color = { r := 0, g := 0, b := 0, a := 0 } ∧
    TextSpan.default.align = TextAlign.left ∧
    TextSpan.default.kerning = false ∧
    TextSpan.default.bold = false ∧
    TextSpan.default.italic = false ∧
    TextSpan.default.underline = false ∧
    TextSpan.default.tab_stops = [] ∧
    TextSpan.default.url = "" ∧
    TextSpan.default.target = "" ∧
    (∀ (n : Nat) (tf : TextFormat),
      (TextSpan.with_length_and_format n tf).span_length = n ∧
      (TextSpan.with_length_and_format n tf).font = tf.font.getD "" ∧
      (TextSpan.with_length_and_format n tf).size = tf.size.getD (F64.val 12) ∧
      (TextSpan.with_length_and_format n tf).color = tf.color.getD { r := 0, g := 0, b := 0, a := 0 } ∧
      (TextSpan.with_length_and_format n tf).align = tf.align.getD TextAlign.left ∧
      (TextSpan.with_length_and_format n tf).bold = tf.bold.getD false ∧
      (TextSpan.with_length_and_format n tf).italic = tf.italic.getD false ∧
      (TextSpan.with_length_and_format n tf).underline = tf.underline.getD false ∧
      (TextSpan.with_length_and_format n tf).left_margin = tf.left_margin.getD (F64.val 0) ∧
      (TextSpan.with_length_and_format n tf).right_margin = tf.right_margin.getD (F64.val 0) ∧
      (TextSpan.with_length_and_format n tf).indent = tf.indent.getD (F64.val 0) ∧
      (TextSpan.with_length_and_format n tf).block_indent = tf.block_indent.getD (F64.val 0) ∧
      (TextSpan.with_length_and_format n tf).kerning = tf.kerning.getD false ∧
      (TextSpan.with_length_and_format n tf).leading = tf.leading.getD (F64.val 0) ∧
      (TextSpan.with_length_and_format n tf).letter_spacing = tf.letter_spacing.getD (F64.val 0) ∧
      (TextSpan.with_length_and_format n tf).tab_stops = tf.tab_stops.getD [] ∧
      (TextSpan.with_length_and_format n tf).bullet = tf.bullet.getD false ∧
      (TextSpan.with_length_and_format n tf).url = tf.url.getD "" ∧
      (TextSpan.with_length_and_format n tf).target = tf.target.getD "") := by
  refine ⟨rfl, rfl, rfl, rfl, rfl, rfl, rfl, rfl, rfl, rfl, rfl, rfl, rfl, ?_⟩
  intro n tf
  exact ⟨rfl, rfl, rfl, rfl, rfl, rfl, rfl, rfl, rfl, rfl, rfl, rfl, rfl, rfl, rfl, rfl, rfl,
    rfl, rfl⟩

/-- C9: the claim is right and the code is wrong. The text-node arm of
`lower_from_html` is an empty `TODO`, so lowering a document appends nothing
at all: the whole table is returned unchanged for every document, instead of
appending one styled run per text node. -/
theorem C9_lower_from_html_appends_nothing (fs : FormatSpans) (tree : XMLNodeData) :
    fs.lower_from_html tree = fs :=
  lowerLoop_id _ _ _

/-- C10: on an invariant-satisfying table, `ensure_span_break_at(pos)` with
`pos` in range leaves the text unchanged, preserves the total span length,
preserves the resolved format at every character position, and either makes
no structural change or replaces exactly one span with two spans whose
lengths sum to the original's and whose resolved formats both equal the
original's. -/
theorem C10_ensure_span_break_frame (fs : FormatSpans) (pos : Nat)
    (hinv : fs.invariantsHold) (hpos : pos < fs.text.length) :
    (fs.ensure_span_break_at pos).1.text = fs.text ∧
    totalSpanLength (fs.ensure_span_break_at pos).1.spans = totalSpanLength fs.spans ∧
    (∀ p, (fs.ensure_span_break_at pos).1.format_at p = fs.format_at p) ∧
    ((fs.ensure_span_break_at pos).1.spans = fs.spans ∨
      ∃ i s s1 s2, fs.spans[i]? = some s ∧
        (fs.ensure_span_break_at pos).1.spans =
          fs.spans.take i ++ s1 :: s2 :: fs.spans.drop (i + 1) ∧
        s1.span_length + s2.span_length = s.span_length ∧
        s1.get_text_format = s.get_text_format ∧
        s2.get_text_format = s.get_text_format) := by
  obtain ⟨ht, _, hsum, hfl, hstruct⟩ := ensure_span_break_effect fs pos
  refine ⟨ht, hsum, ?_, hstruct⟩
  intro p
  rw [format_at_eq_flatten, format_at_eq_flatten, hfl]

/-- C10 (witness): the theorem applied to a concrete two-span table with a
break requested inside the first span. -/
theorem C10_witness :
    twoSpanTable.invariantsHold ∧ 1 < twoSpanTable.text.length ∧
    ((twoSpanTable.ensure_span_break_at 1).1.text = twoSpanTable.text ∧
    totalSpanLength (twoSpanTable.ensure_span_break_at 1).1.spans =
      totalSpanLength twoSpanTable.spans ∧
    (∀ p, (twoSpanTable.ensure_span_break_at 1).1.format_at p = twoSpanTable.format_at p) ∧
    ((twoSpanTable.ensure_span_break_at 1).1.spans = twoSpanTable.spans ∨
      ∃ i s s1 s2, twoSpanTable.spans[i]? = some s ∧
        (twoSpanTable.ensure_span_break_at 1).1.spans =
          twoSpanTable.spans.take i ++ s1 :: s2 :: twoSpanTable.spans.drop (i + 1) ∧
        s1.span_length + s2.span_length = s.span_length ∧
        s1.get_text_format = s.get_text_format ∧
        s2.get_text_format = s.get_text_format)) :=
  ⟨by decide, by decide, C10_ensure_span_break_frame twoSpanTable 1 (by decide) (by decide)⟩
